import Mathlib

/-!
Verification development for the Rubik's-Cube-Solver capture core: a shallow
embedding of the color classifier (`colorDetection.js`), the cube validator
(`validator.js`) and the cube state container (`cubeState.js`), together with
theorems about the behaviour of `detectColor`, `validate`, `validateFace` and
`getStateString`.

Modelling conventions:
* JavaScript numbers are embedded as exact rationals (`ℚ`); all arithmetic in
  the embedded code paths is exact in the source as well (small integer
  HSV bounds, sums of products), so no floating-point rounding is observable
  in the properties proved here.
* Sticker colors are plain strings, as in the source.
* `-Infinity` / `Infinity` sentinels of the two best-candidate loops are
  embedded as `Option` (`none` = no candidate seen yet), which reproduces the
  JS behaviour: the first loop iteration always replaces the sentinel.
* The JS fallback compares Euclidean distances `Math.sqrt(dsq)`; since the
  square root is strictly increasing on nonnegative reals, comparing the
  squared distances selects exactly the same candidate, so the embedding
  compares squared distances (keeping everything inside `ℚ`).
-/

/-- One sticker cell of a captured face.  Captured cells also carry position
and raw rgb/hsv data in the source, but every embedded code path reads only
the `color` field. -/
structure Cell where
  color : String
deriving Repr, DecidableEq

/-- An HSV triple as produced by `rgbToHsv`: hue in degrees, saturation and
value in percent. -/
structure Hsv where
  h : ℚ
  s : ℚ
  v : ℚ
deriving Repr, DecidableEq

/-- One entry of `this.colorRanges`: accepted hue / saturation / value bands. -/
structure ColorRange where
  hRange : ℚ × ℚ
  sRange : ℚ × ℚ
  vRange : ℚ × ℚ
deriving Repr, DecidableEq

/-- `this.colorRanges` from `colorDetection.js`, in insertion order. -/
def colorRanges : List (String × ColorRange) :=
  [("white",  ⟨(0, 360),  (0, 40),   (40, 100)⟩),
   ("yellow", ⟨(40, 75),  (40, 100), (60, 100)⟩),
   ("red",    ⟨(0, 15),   (50, 100), (50, 100)⟩),
   ("orange", ⟨(15, 40),  (50, 100), (50, 100)⟩),
   ("green",  ⟨(75, 160), (30, 100), (30, 100)⟩),
   ("blue",   ⟨(160, 270), (40, 100), (30, 100)⟩)]

/-- One entry of `this.colorCenters`: the canonical HSV reference point used
by the nearest-neighbor fallback. -/
structure ColorCenter where
  h : ℚ
  s : ℚ
  v : ℚ
deriving Repr, DecidableEq

/-- `this.colorCenters` from `colorDetection.js`, in insertion order. -/
def colorCenters : List (String × ColorCenter) :=
  [("white",  ⟨0, 0, 100⟩),
   ("yellow", ⟨60, 100, 100⟩),
   ("red",    ⟨0, 100, 100⟩),
   ("orange", ⟨30, 100, 100⟩),
   ("green",  ⟨120, 100, 100⟩),
   ("blue",   ⟨220, 100, 100⟩)]

/-- `Math.max` on two rationals (kernel-reducible form of `max`). -/
def qmax (a b : ℚ) : ℚ := if a ≤ b then b else a

/-- `Math.min` on two rationals (kernel-reducible form of `min`). -/
def qmin (a b : ℚ) : ℚ := if a ≤ b then a else b

/-- `Math.abs` on a rational (kernel-reducible form of `|·|`). -/
def qabs (a : ℚ) : ℚ := if a < 0 then -a else a

/-- Embeds `ColorDetector.rgbToHsv` from `colorDetection.js`. -/
def rgbToHsv (r0 g0 b0 : ℚ) : Hsv :=
  let r := r0 / 255
  let g := g0 / 255
  let b := b0 / 255
  let mx := qmax r (qmax g b)
  let mn := qmin r (qmin g b)
  let diff := mx - mn
  let s : ℚ := if mx = 0 then 0 else diff / mx * 100
  let v : ℚ := mx * 100
  let h : ℚ :=
    if diff = 0 then 0
    else if mx = r then ((g - b) / diff + (if g < b then 6 else 0)) * 60
    else if mx = g then ((b - r) / diff + 2) * 60
    else ((r - g) / diff + 4) * 60
  ⟨h, s, v⟩

/-- The score one color receives in the range-matching stage of
`ColorDetector.detectColor`: +100 for hue in band (red's band is the union
`[0,15] ∪ [330,360]`), +50 for saturation in band, +50 for value in band. -/
def scoreColor (colorName : String) (range : ColorRange) (hsv : Hsv) : ℤ :=
  let hueScore : ℤ :=
    if colorName = "red" then
      if (0 ≤ hsv.h ∧ hsv.h ≤ 15) ∨ (330 ≤ hsv.h ∧ hsv.h ≤ 360) then 100 else 0
    else
      if range.hRange.1 ≤ hsv.h ∧ hsv.h ≤ range.hRange.2 then 100 else 0
  let satScore : ℤ := if range.sRange.1 ≤ hsv.s ∧ hsv.s ≤ range.sRange.2 then 50 else 0
  let valScore : ℤ := if range.vRange.1 ≤ hsv.v ∧ hsv.v ≤ range.vRange.2 then 50 else 0
  hueScore + satScore + valScore

/-- One iteration of the range-matching loop in `detectColor`.  The JS
`bestScore` starts at `-Infinity`, embedded here as `none`: the comparison
`score > -Infinity` always holds, so a `none` best is always replaced. -/
def rangeStep (hsv : Hsv) (best : String × Option ℤ) (p : String × ColorRange) :
    String × Option ℤ :=
  let score := scoreColor p.1 p.2 hsv
  match best.2 with
  | none => (p.1, some score)
  | some m => if m < score then (p.1, some score) else best

/-- The range-matching stage of `detectColor`: fold the loop over
`colorRanges` starting from `bestMatch = "unknown"`, `bestScore = -Infinity`. -/
def rangeStage (hsv : Hsv) : String × Option ℤ :=
  colorRanges.foldl (rangeStep hsv) ("unknown", none)

/-- The acceptance test `bestScore >= 150` of `detectColor` (`-Infinity`,
embedded as `none`, is below every threshold). -/
def scoreAtLeast (score : Option ℤ) (t : ℤ) : Bool :=
  match score with
  | none => false
  | some m => decide (t ≤ m)

/-- Circular hue distance of `detectColor`: `|Δh|`, wrapped to `360 - |Δh|`
when above 180. -/
def hueDistance (h c : ℚ) : ℚ :=
  let dh := qabs (h - c)
  if 180 < dh then 360 - dh else dh

/-- The squared weighted distance of the nearest-neighbor fallback of
`detectColor`.  The source takes `Math.sqrt` of this value; comparisons of
the square roots coincide with comparisons of these squares. -/
def weightedDistSq (colorName : String) (center : ColorCenter) (hsv : Hsv) : ℚ :=
  let dh := hueDistance hsv.h center.h
  let wH : ℚ := if colorName = "white" then 1/10 else 2
  let wS : ℚ := if colorName = "white" then 3 else 1
  let wV : ℚ := 1/2
  (dh * wH) * (dh * wH) + ((hsv.s - center.s) * wS) * ((hsv.s - center.s) * wS) +
    ((hsv.v - center.v) * wV) * ((hsv.v - center.v) * wV)

/-- One iteration of the fallback loop of `detectColor`.  The JS `minDist`
starts at `Infinity`, embedded as `none`: every distance is below it. -/
def nearestStep (hsv : Hsv) (best : String × Option ℚ) (p : String × ColorCenter) :
    String × Option ℚ :=
  let dsq := weightedDistSq p.1 p.2 hsv
  match best.2 with
  | none => (p.1, some dsq)
  | some m => if dsq < m then (p.1, some dsq) else best

/-- The nearest-neighbor fallback stage of `detectColor`: fold the loop over
`colorCenters` starting from `nearestColor = "unknown"`, `minDist = Infinity`. -/
def nearestStage (hsv : Hsv) : String :=
  (colorCenters.foldl (nearestStep hsv) ("unknown", none)).1

/-- Embeds `ColorDetector.detectColor` from `colorDetection.js`: range
matching first, accepted when the best score reaches 150, otherwise the
nearest-neighbor fallback. -/
def detectColor (hsv : Hsv) : String :=
  let best := rangeStage hsv
  if scoreAtLeast best.2 150 then best.1 else nearestStage hsv

/-- The seven members of the `StickerColor` enumeration. -/
def stickerColorNames : List String :=
  ["white", "yellow", "red", "orange", "green", "blue", "unknown"]

/-- The six known colors, in `colorRanges` / `colorCenters` insertion order. -/
def knownColorNames : List String :=
  ["white", "yellow", "red", "orange", "green", "blue"]

example : rgbToHsv 255 255 255 = ⟨0, 0, 100⟩ := by norm_num [rgbToHsv, qmax, qmin]
example : rgbToHsv 255 0 0 = ⟨0, 100, 100⟩ := by norm_num [rgbToHsv, qmax, qmin]
example : detectColor ⟨0, 0, 100⟩ = "white" := by
  simp +decide [detectColor, rangeStage, colorRanges, rangeStep, scoreColor, scoreAtLeast]
example : detectColor ⟨0, 100, 100⟩ = "red" := by
  simp +decide [detectColor, rangeStage, colorRanges, rangeStep, scoreColor, scoreAtLeast]
example : scoreAtLeast (rangeStage ⟨350, 45, 20⟩).2 150 = false := by
  simp +decide [rangeStage, colorRanges, rangeStep, scoreColor, scoreAtLeast]
example : nearestStage ⟨350, 45, 20⟩ = "red" := by
  norm_num +decide [nearestStage, colorCenters, nearestStep, weightedDistSq, hueDistance, qabs]

/-- Generic invariant of the two best-candidate loops of `detectColor`: a step
either installs the current list entry's name or keeps the accumulator, so the
final name is the initial one or comes from the traversed list. -/
theorem foldl_best_fst {α β : Type} (f : String × Option β → String × α → String × Option β)
    (hf : ∀ b p, (f b p).1 = p.1 ∨ f b p = b)
    (l : List (String × α)) (b : String × Option β) :
    (l.foldl f b).1 = b.1 ∨ (l.foldl f b).1 ∈ l.map Prod.fst := by
  induction l generalizing b with
  | nil => exact Or.inl rfl
  | cons p l ih =>
    rw [List.foldl_cons, List.map_cons]
    rcases ih (f b p) with h | h
    · rcases hf b p with h2 | h2
      · right
        rw [h, h2]
        exact List.mem_cons_self _ _
      · left
        rw [h, h2]
    · right
      exact List.mem_cons_of_mem _ h

/-- A range-matching step installs the entry's color name or keeps the
accumulator. -/
theorem rangeStep_cases (hsv : Hsv) (b : String × Option ℤ) (p : String × ColorRange) :
    (rangeStep hsv b p).1 = p.1 ∨ rangeStep hsv b p = b := by
  rcases b with ⟨n, sc⟩
  cases sc with
  | none => exact Or.inl rfl
  | some m =>
    unfold rangeStep
    dsimp only
    split
    · exact Or.inl rfl
    · exact Or.inr rfl

/-- A nearest-neighbor step installs the entry's color name or keeps the
accumulator. -/
theorem nearestStep_cases (hsv : Hsv) (b : String × Option ℚ) (p : String × ColorCenter) :
    (nearestStep hsv b p).1 = p.1 ∨ nearestStep hsv b p = b := by
  rcases b with ⟨n, sc⟩
  cases sc with
  | none => exact Or.inl rfl
  | some m =>
    unfold nearestStep
    dsimp only
    split
    · exact Or.inl rfl
    · exact Or.inr rfl

/-- Every known color name is a member of the `StickerColor` enumeration. -/
theorem known_subset_sticker : ∀ c ∈ knownColorNames, c ∈ stickerColorNames := by decide

/-- The nearest-neighbor fallback always produces one of the six known colors:
its loop starts by unconditionally replacing the `"unknown"` / `Infinity`
accumulator with the first reference color. -/
theorem nearestStage_mem_known (hsv : Hsv) : nearestStage hsv ∈ knownColorNames := by
  have key : colorCenters.foldl (nearestStep hsv) ("unknown", none) =
      colorCenters.tail.foldl (nearestStep hsv)
        ("white", some (weightedDistSq "white" ⟨0, 0, 100⟩ hsv)) := rfl
  have hmem := foldl_best_fst (nearestStep hsv) (nearestStep_cases hsv) colorCenters.tail
      ("white", some (weightedDistSq "white" ⟨0, 0, 100⟩ hsv))
  rw [nearestStage, key]
  rcases hmem with h | h
  · rw [h]
    show ("white" : String) ∈ knownColorNames
    decide
  · have htail : colorCenters.tail.map Prod.fst = ["yellow", "red", "orange", "green", "blue"] := rfl
    rw [htail] at h
    have hsub : ∀ c ∈ (["yellow", "red", "orange", "green", "blue"] : List String),
        c ∈ knownColorNames := by decide
    exact hsub _ h

/-- The range-matching stage's best match is `"unknown"` or one of the six
known color names. -/
theorem rangeStage_mem (hsv : Hsv) :
    (rangeStage hsv).1 = "unknown" ∨ (rangeStage hsv).1 ∈ knownColorNames := by
  have hmem := foldl_best_fst (rangeStep hsv) (rangeStep_cases hsv) colorRanges ("unknown", none)
  have hnames : colorRanges.map Prod.fst = knownColorNames := rfl
  rw [rangeStage]
  rcases hmem with h | h
  · exact Or.inl h
  · rw [hnames] at h
    exact Or.inr h

/-- C2: the classifier is total: for every HSV triple with hue in `[0, 360]`
and saturation and value in `[0, 100]`, `detectColor` returns one of the seven
enumerated `StickerColor` values. -/
theorem detectColor_total (hsv : Hsv)
    (hh0 : 0 ≤ hsv.h) (hh1 : hsv.h ≤ 360) (hs0 : 0 ≤ hsv.s) (hs1 : hsv.s ≤ 100)
    (hv0 : 0 ≤ hsv.v) (hv1 : hsv.v ≤ 100) :
    detectColor hsv ∈ stickerColorNames := by
  unfold detectColor
  dsimp only
  split
  · rcases rangeStage_mem hsv with h | h
    · rw [h]
      decide
    · exact known_subset_sticker _ h
  · exact known_subset_sticker _ (nearestStage_mem_known hsv)

/-- Witness for C2 at the concrete in-range triple `(0, 0, 100)`. -/
theorem detectColor_total_witness : detectColor ⟨0, 0, 100⟩ ∈ stickerColorNames :=
  detectColor_total ⟨0, 0, 100⟩ (by decide) (by decide) (by decide) (by decide)
    (by decide) (by decide)

/-- C3: whenever the range-scoring stage scores below 150 so the fallback
runs, `detectColor` returns the fallback's answer, and that answer is one of
the six known colors — never `"unknown"`. -/
theorem fallback_never_unknown (hsv : Hsv)
    (hlow : scoreAtLeast (rangeStage hsv).2 150 = false) :
    detectColor hsv = nearestStage hsv ∧ detectColor hsv ∈ knownColorNames := by
  have hd : detectColor hsv = nearestStage hsv := by
    unfold detectColor
    dsimp only
    rw [hlow]
    simp
  exact ⟨hd, hd ▸ nearestStage_mem_known hsv⟩

/-- Witness for C3 at the concrete triple `(350, 45, 20)`, whose best range
score is 100. -/
theorem fallback_never_unknown_witness :
    scoreAtLeast (rangeStage ⟨350, 45, 20⟩).2 150 = false ∧
      detectColor ⟨350, 45, 20⟩ = nearestStage ⟨350, 45, 20⟩ ∧
      detectColor ⟨350, 45, 20⟩ ∈ knownColorNames := by
  have h : scoreAtLeast (rangeStage ⟨350, 45, 20⟩).2 150 = false := by
    simp +decide [rangeStage, colorRanges, rangeStep, scoreColor, scoreAtLeast]
  exact ⟨h, fallback_never_unknown ⟨350, 45, 20⟩ h⟩

/-- C7: composing `rgbToHsv` with `detectColor` classifies pure white
`(255, 255, 255)` as `"white"` and pure saturated red `(255, 0, 0)` as
`"red"`, the latter through the wrapped hue band `[0,15] ∪ [330,360]`. -/
theorem rgb_white_red_classification :
    detectColor (rgbToHsv 255 255 255) = "white" ∧ detectColor (rgbToHsv 255 0 0) = "red" := by
  have h1 : rgbToHsv 255 255 255 = ⟨0, 0, 100⟩ := by norm_num [rgbToHsv, qmax, qmin]
  have h2 : rgbToHsv 255 0 0 = ⟨0, 100, 100⟩ := by norm_num [rgbToHsv, qmax, qmin]
  rw [h1, h2]
  constructor <;>
    simp +decide [detectColor, rangeStage, colorRanges, rangeStep, scoreColor, scoreAtLeast]

/-- The six face slots of `this.state` in `cubeState.js`, each unset (`null`)
or holding a captured face (an array of cells).  Field order U, D, L, R, F, B
is the object's insertion order, which fixes the `Object.values` order. -/
structure Faces where
  U : Option (List Cell)
  D : Option (List Cell)
  L : Option (List Cell)
  R : Option (List Cell)
  F : Option (List Cell)
  B : Option (List Cell)
deriving Repr, DecidableEq

/-- One record of `this.captureHistory` in `cubeState.js`. -/
structure Capture where
  face : String
  colors : List Cell
  timestamp : Nat
deriving Repr, DecidableEq

/-- The `CubeState` object of `cubeState.js`: the six face slots, the current
face marker, the capture history and the legacy face index. -/
structure CubeState where
  state : Faces
  currentFace : String
  captureHistory : List Capture
  currentFaceIndex : Int
deriving Repr, DecidableEq

/-- Embeds `CubeState.isComplete`: `Object.values(this.state).every(face =>
face !== null)`. -/
def isCompleteB (fs : Faces) : Bool :=
  fs.U.isSome && fs.D.isSome && fs.L.isSome && fs.R.isSome && fs.F.isSome && fs.B.isSome

/-- Embeds `CubeState.getAllFaces` as a state transformer: it returns the
shallow copy `{ ...this.state }` and leaves the cube state untouched. -/
def getAllFacesRun (st : CubeState) : Faces × CubeState := (st.state, st)

/-- Embeds `CubeState.isComplete` as a state transformer on the cube object:
a pure read. -/
def isCompleteRun (st : CubeState) : Bool × CubeState := (isCompleteB st.state, st)

/-- `this.requiredColors` of `CubeValidator` in `validator.js`, in insertion
order. -/
def requiredColors : List String :=
  ["white", "yellow", "red", "orange", "blue", "green"]

/-- The colors a face slot contributes to `allColors` in `validate`
(`if (face) face.forEach(cell => allColors.push(cell.color))`). -/
def faceColors : Option (List Cell) → List String
  | some face => face.map Cell.color
  | none => []

/-- The `allColors` array built by `validate`: all sticker colors in
`Object.values(faces)` order U, D, L, R, F, B. -/
def allColorsOf (fs : Faces) : List String :=
  faceColors fs.U ++ faceColors fs.D ++ faceColors fs.L ++ faceColors fs.R ++
    faceColors fs.F ++ faceColors fs.B

/-- The center color a face contributes in `CubeValidator.getCenterColors`:
only faces of length exactly 9 contribute their index-4 cell. -/
def centerContrib : Option (List Cell) → List String
  | some face => if face.length = 9 then [(face.getD 4 ⟨""⟩).color] else []
  | none => []

/-- Embeds `CubeValidator.getCenterColors`, which walks the fixed face order
F, R, B, L, U, D. -/
def getCenterColors (fs : Faces) : List String :=
  centerContrib fs.F ++ centerContrib fs.R ++ centerContrib fs.B ++ centerContrib fs.L ++
    centerContrib fs.U ++ centerContrib fs.D

/-- The predicate of the stray-color check in `validate`: a color outside the
six required colors that is not the `"unknown"` sentinel. -/
def strayColor (c : String) : Bool :=
  !(requiredColors.contains c) && !(c == "unknown")

/-- The `colorCounts` map of `validate`: one `(color, count)` entry per
required color, in `requiredColors` order. -/
def colorCountsOf (allColors : List String) : List (String × Nat) :=
  requiredColors.map fun c => (c, allColors.count c)

/-- The total-sticker-count check of `validate`. -/
def totalErr (allColors : List String) : List String :=
  if allColors.length ≠ 54 then
    (let n := allColors.length
     [s!"Invalid total stickers: {n} (expected 54)"])
  else []

/-- The stray-color check of `validate`. -/
def strayErr (allColors : List String) : List String :=
  let unknownColors := allColors.filter strayColor
  if unknownColors ≠ [] then
    (let joined := String.intercalate ", " unknownColors
     [s!"Unknown colors detected: {joined}"])
  else []

/-- The per-color-count checks of `validate`, one message per color whose
count differs from 9, in map order. -/
def countErrs (allColors : List String) : List String :=
  (colorCountsOf allColors).filterMap fun p =>
    if p.2 = 9 then none
    else
      (let c := p.1
       let n := p.2
       some s!"Invalid {c} count: {n} (expected 9)")

/-- The undetected-sticker check of `validate`. -/
def unknownErr (allColors : List String) : List String :=
  let unknownCount := (allColors.filter fun c => c == "unknown").length
  if 0 < unknownCount then
    (let n := unknownCount
     [s!"{n} stickers could not be detected. Please recapture these faces."])
  else []

/-- The distinct-centers check of `validate`: the `Set` size is the number of
distinct center colors. -/
def centerErr (centerColors : List String) : List String :=
  if centerColors.dedup.length ≠ 6 then ["Center pieces must all be different colors"] else []

/-- The center-coverage check of `validate`. -/
def missingErr (centerColors : List String) : List String :=
  let missingCenterColors := requiredColors.filter fun c => !(centerColors.contains c)
  if missingCenterColors ≠ [] then
    (let joined := String.intercalate ", " missingCenterColors
     [s!"Missing center colors: {joined}"])
  else []

/-- All violations `validate` accumulates on a complete cube, in push order. -/
def validationErrors (fs : Faces) : List String :=
  totalErr (allColorsOf fs) ++ strayErr (allColorsOf fs) ++ countErrs (allColorsOf fs) ++
    unknownErr (allColorsOf fs) ++ centerErr (getCenterColors fs) ++
    missingErr (getCenterColors fs)

/-- The object returned by `CubeValidator.validate`.  The early return on an
incomplete cube carries no `colorCounts` property, embedded as `none`. -/
structure ValidationResult where
  valid : Bool
  errors : List String
  colorCounts : Option (List (String × Nat))
deriving Repr, DecidableEq

/-- The checks `validate` performs once the cube is known to be complete. -/
def validateChecks (fs : Faces) : ValidationResult :=
  let errors := validationErrors fs
  { valid := errors.length == 0
    errors := errors
    colorCounts := some (colorCountsOf (allColorsOf fs)) }

/-- Embeds `CubeValidator.validate` from `validator.js` as a state
transformer over the cube object: `getAllFaces` first, then the completeness
guard with its early return, then the accumulated checks. -/
def validateRun (st : CubeState) : ValidationResult × CubeState :=
  let fr := getAllFacesRun st
  let cr := isCompleteRun fr.2
  if cr.1 = false then
    ({ valid := false
       errors := ["Not all faces have been captured"]
       colorCounts := none }, cr.2)
  else
    (validateChecks fr.1, cr.2)

/-- The value `validate` returns. -/
def validate (st : CubeState) : ValidationResult := (validateRun st).1

/-- A warning attached to a `validateFace` result: the length/unknown branch
sets the untyped flag `warning: true`, the uniform-face branch a message. -/
inductive FaceWarning where
  | flag : FaceWarning
  | message : String → FaceWarning
deriving Repr, DecidableEq

/-- The object returned by `CubeValidator.validateFace`. -/
structure FaceValidationResult where
  valid : Bool
  error : Option String
  warning : Option FaceWarning
deriving Repr, DecidableEq

/-- Embeds `CubeValidator.validateFace` from `validator.js`; the argument is
`none` for a `null`/missing capture array. -/
def validateFace : Option (List Cell) → FaceValidationResult
  | none => ⟨false, some "Face must have exactly 9 stickers", none⟩
  | some colors =>
    if colors.length ≠ 9 then ⟨false, some "Face must have exactly 9 stickers", none⟩
    else
      let unknownCount := (colors.filter fun c => c.color == "unknown").length
      if 0 < unknownCount then
        (let n := unknownCount
         ⟨false, some s!"{n} sticker(s) could not be detected. Adjust lighting or position.",
          some .flag⟩)
      else
        let uniqueColors := (colors.map Cell.color).dedup
        if uniqueColors.length = 1 then
          ⟨true, none, some (.message "All stickers appear to be the same color. Is this correct?")⟩
        else ⟨true, none, none⟩

/-- Embeds `CubeState.colorToNotation` from `cubeState.js`: the fixed
color-to-face-letter mapping, `"?"` for anything outside the six colors. -/
def colorLetter (colorName : String) : String :=
  if colorName = "white" then "U"
  else if colorName = "yellow" then "D"
  else if colorName = "red" then "F"
  else if colorName = "orange" then "B"
  else if colorName = "blue" then "R"
  else if colorName = "green" then "L"
  else "?"

/-- The per-face contribution to the state string: the source appends
`colorToNotation(cell.color)` for each cell in order. -/
def faceNotationStr (face : List Cell) : String :=
  face.foldl (fun acc cell => acc ++ colorLetter cell.color) ""

/-- Embeds `CubeState.getStateString` from `cubeState.js`: `null` when the
cube is incomplete, otherwise the face strings concatenated in the standard
order U, R, F, D, L, B (the `if (!faceData) return null` inside the loop is
the catch-all arm). -/
def getStateString (st : CubeState) : Option String :=
  if isCompleteB st.state = false then none
  else
    match st.state.U, st.state.R, st.state.F, st.state.D, st.state.L, st.state.B with
    | some u, some r, some f, some d, some l, some b =>
      some (faceNotationStr u ++ faceNotationStr r ++ faceNotationStr f ++ faceNotationStr d ++
        faceNotationStr l ++ faceNotationStr b)
    | _, _, _, _, _, _ => none

/-- A freshly `reset` cube state: all faces unset, current face F, empty
history. -/
def emptyState : CubeState := ⟨⟨none, none, none, none, none, none⟩, "F", [], 0⟩

/-- A face of nine stickers of one color. -/
def uniformFace (c : String) : List Cell := List.replicate 9 ⟨c⟩

/-- A fully captured, consistent cube: one color per face, distinct centers. -/
def solvedState : CubeState :=
  ⟨⟨some (uniformFace "white"), some (uniformFace "yellow"), some (uniformFace "orange"),
    some (uniformFace "red"), some (uniformFace "green"), some (uniformFace "blue")⟩,
   "F", [], 0⟩

/-- A fully captured cube whose U and D faces share the center color white. -/
def dupCenterState : CubeState :=
  ⟨⟨some (uniformFace "white"), some (uniformFace "white"), some (uniformFace "orange"),
    some (uniformFace "red"), some (uniformFace "green"), some (uniformFace "blue")⟩,
   "F", [], 0⟩

example : (validate solvedState).valid = true := by decide
example : (validate solvedState).errors = [] := by decide
example : (validate emptyState) = ⟨false, ["Not all faces have been captured"], none⟩ := by decide
example : (validate dupCenterState).valid = false := by decide
example : "Center pieces must all be different colors" ∈ (validate dupCenterState).errors := by
  decide
example : getStateString solvedState =
    some "UUUUUUUUUFFFFFFFFFLLLLLLLLLDDDDDDDDDBBBBBBBBBRRRRRRRRR" := by decide

/-- C5: `validate` on an incomplete CubeState short-circuits: invalid, exactly
one structural violation, and no combinatorial output (no counts, no other
messages). -/
theorem validate_incomplete (st : CubeState) (h : isCompleteB st.state = false) :
    validate st = ⟨false, ["Not all faces have been captured"], none⟩ := by
  unfold validate validateRun getAllFacesRun isCompleteRun
  simp [h]

/-- Witness for C5 at the freshly reset cube. -/
theorem validate_incomplete_witness :
    validate emptyState = ⟨false, ["Not all faces have been captured"], none⟩ :=
  validate_incomplete emptyState (by decide)

/-- C9: `validate` never mutates its input: the cube state threaded through
the run (`getAllFaces`, `isComplete`, the checks) comes out with faces,
capture history, current face and face index unchanged. -/
theorem validate_no_mutation (st : CubeState) :
    (validateRun st).2.state = st.state ∧
      (validateRun st).2.captureHistory = st.captureHistory ∧
      (validateRun st).2.currentFace = st.currentFace ∧
      (validateRun st).2.currentFaceIndex = st.currentFaceIndex := by
  unfold validateRun getAllFacesRun isCompleteRun
  dsimp only
  split <;> exact ⟨rfl, rfl, rfl, rfl⟩

/-- C8: `validateFace` rejects a `null` capture or any capture whose length
is not 9 with the structural error, unconditionally on the contents. -/
theorem validateFace_wrong_length (colors : Option (List Cell))
    (h : colors = none ∨ ∃ l, colors = some l ∧ l.length ≠ 9) :
    validateFace colors = ⟨false, some "Face must have exactly 9 stickers", none⟩ := by
  rcases h with rfl | ⟨l, rfl, hl⟩
  · rfl
  · simp only [validateFace]
    rw [if_pos hl]

/-- Witness for C8 at a length-8 capture. -/
theorem validateFace_wrong_length_witness :
    validateFace (some (List.replicate 8 ⟨"white"⟩)) =
      ⟨false, some "Face must have exactly 9 stickers", none⟩ :=
  validateFace_wrong_length _ (Or.inr ⟨_, rfl, by decide⟩)

/-- C4 counterexample: on the incomplete reset cube, the early return of
`validate` carries no `colorCounts` map at all. -/
theorem validate_counts_missing_on_incomplete :
    (validate emptyState).colorCounts = none := rfl

/-- C4 (amended): on every complete CubeState the report of `validate`
carries a `colorCounts` map with one count per required color; the
early-returned report of an incomplete cube carries none. -/
theorem validate_counts_on_complete (st : CubeState) (h : isCompleteB st.state = true) :
    ∃ m, (validate st).colorCounts = some m ∧ m.map Prod.fst = requiredColors := by
  have hv : validate st = validateChecks st.state := by
    unfold validate validateRun getAllFacesRun isCompleteRun
    simp [h]
  rw [hv]
  refine ⟨colorCountsOf (allColorsOf st.state), rfl, ?_⟩
  simp [colorCountsOf, List.map_map, Function.comp_def]

/-- Witness for C4's amended statement at the solved cube. -/
theorem validate_counts_on_complete_witness :
    ∃ m, (validate solvedState).colorCounts = some m ∧ m.map Prod.fst = requiredColors :=
  validate_counts_on_complete solvedState (by decide)

/-- A face slot holding a captured list of exactly nine cells. -/
def faceSet (f : Option (List Cell)) : Prop := ∃ l, f = some l ∧ l.length = 9

/-- Completeness in the sense of the data model: all six faces captured,
each with exactly nine stickers. -/
def CompleteNine (fs : Faces) : Prop :=
  faceSet fs.U ∧ faceSet fs.D ∧ faceSet fs.L ∧ faceSet fs.R ∧ faceSet fs.F ∧ faceSet fs.B

/-- A complete cube passes the `isComplete` guard. -/
theorem isCompleteB_of_completeNine {fs : Faces} (h : CompleteNine fs) :
    isCompleteB fs = true := by
  obtain ⟨⟨u, hu, _⟩, ⟨d, hd, _⟩, ⟨l, hl, _⟩, ⟨r, hr, _⟩, ⟨f, hf, _⟩, ⟨b, hb, _⟩⟩ := h
  unfold isCompleteB
  rw [hu, hd, hl, hr, hf, hb]
  rfl

/-- On a complete cube `validate` runs the accumulated checks. -/
theorem validate_eq_checks {st : CubeState} (h : isCompleteB st.state = true) :
    validate st = validateChecks st.state := by
  unfold validate validateRun getAllFacesRun isCompleteRun
  simp [h]

/-- On a complete cube all six faces contribute a center, so
`getCenterColors` has six entries. -/
theorem getCenterColors_length {fs : Faces} (h : CompleteNine fs) :
    (getCenterColors fs).length = 6 := by
  obtain ⟨⟨u, hu, hu9⟩, ⟨d, hd, hd9⟩, ⟨l, hl, hl9⟩, ⟨r, hr, hr9⟩, ⟨f, hf, hf9⟩, ⟨b, hb, hb9⟩⟩ := h
  unfold getCenterColors centerContrib
  rw [hu, hd, hl, hr, hf, hb]
  simp [hu9, hd9, hl9, hr9, hf9, hb9]

/-- C6: on a complete cube in which two faces share a center color,
`validate` reports invalid and its violation list contains the non-unique
centers message, with no assumption on the overall color counts. -/
theorem validate_duplicate_centers (st : CubeState) (hc : CompleteNine st.state)
    (hdup : ¬ (getCenterColors st.state).Nodup) :
    (validate st).valid = false ∧
      "Center pieces must all be different colors" ∈ (validate st).errors := by
  rw [validate_eq_checks (isCompleteB_of_completeNine hc)]
  have hlen : (getCenterColors st.state).length = 6 := getCenterColors_length hc
  have hdl : (getCenterColors st.state).dedup.length ≠ 6 := by
    intro he
    apply hdup
    have hsub : (getCenterColors st.state).dedup.Sublist (getCenterColors st.state) :=
      List.dedup_sublist _
    have heq := hsub.eq_of_length (by rw [he, hlen])
    rw [← heq]
    exact List.nodup_dedup _
  have hcent : centerErr (getCenterColors st.state) =
      ["Center pieces must all be different colors"] := by
    unfold centerErr
    rw [if_pos hdl]
  have hmem : "Center pieces must all be different colors" ∈ validationErrors st.state := by
    simp only [validationErrors, List.mem_append, hcent, List.mem_singleton]
    tauto
  have hne : (validationErrors st.state).length ≠ 0 := by
    intro h0
    rw [List.length_eq_zero] at h0
    simp [h0] at hmem
  constructor
  · show ((validationErrors st.state).length == 0) = false
    simpa using hne
  · exact hmem

/-- Witness for C6 at the cube whose U and D centers are both white. -/
theorem validate_duplicate_centers_witness :
    (validate dupCenterState).valid = false ∧
      "Center pieces must all be different colors" ∈ (validate dupCenterState).errors :=
  validate_duplicate_centers dupCenterState
    ⟨⟨_, rfl, by decide⟩, ⟨_, rfl, by decide⟩, ⟨_, rfl, by decide⟩, ⟨_, rfl, by decide⟩,
     ⟨_, rfl, by decide⟩, ⟨_, rfl, by decide⟩⟩
    (by decide)

/-- A membership witness evaluates `List.contains` to true. -/
theorem contains_eq_true_of_mem {l : List String} {c : String} (h : c ∈ l) :
    l.contains c = true := by
  induction l with
  | nil => cases h
  | cons a l ih =>
    rcases List.mem_cons.mp h with rfl | h2
    · simp
    · simp [h2]

/-- `List.contains` only holds for members. -/
theorem mem_of_contains_eq_true {l : List String} {c : String} (h : l.contains c = true) :
    c ∈ l := by
  induction l with
  | nil => simp at h
  | cons a l ih =>
    rw [List.contains_cons] at h
    rcases Bool.or_eq_true_iff.mp h with h2 | h2
    · exact List.mem_cons.mpr (Or.inl (by simpa using h2))
    · exact List.mem_cons_of_mem _ (ih h2)

/-- Counting the stickers that pass the `includes` test splits into the six
per-color counts, because the six required colors are distinct. -/
theorem countP_required (l : List String) :
    l.countP (fun c => requiredColors.contains c) =
      l.count "white" + l.count "yellow" + l.count "red" + l.count "orange" +
        l.count "blue" + l.count "green" := by
  induction l with
  | nil => rfl
  | cons a l ih =>
    simp only [List.countP_cons, List.count_cons, ih]
    by_cases h1 : a = "white"
    · subst h1; simp +decide; omega
    by_cases h2 : a = "yellow"
    · subst h2; simp +decide; omega
    by_cases h3 : a = "red"
    · subst h3; simp +decide; omega
    by_cases h4 : a = "orange"
    · subst h4; simp +decide; omega
    by_cases h5 : a = "blue"
    · subst h5; simp +decide; omega
    by_cases h6 : a = "green"
    · subst h6; simp +decide; omega
    have hmemf : a ∉ requiredColors := by
      intro hmem
      simp [requiredColors, h1, h2, h3, h4, h5, h6] at hmem
    simp [hmemf, h1, h2, h3, h4, h5, h6, beq_iff_eq]

/-- If every required color appears exactly nine times in a 54-sticker list,
every sticker color is one of the required colors. -/
theorem all_mem_required {l : List String} (hlen : l.length = 54)
    (hcounts : ∀ c ∈ requiredColors, l.count c = 9) :
    ∀ c ∈ l, c ∈ requiredColors := by
  have hW := hcounts "white" (by decide)
  have hY := hcounts "yellow" (by decide)
  have hR := hcounts "red" (by decide)
  have hO := hcounts "orange" (by decide)
  have hB := hcounts "blue" (by decide)
  have hG := hcounts "green" (by decide)
  have hcp : l.countP (fun c => requiredColors.contains c) = l.length := by
    rw [countP_required l, hW, hY, hR, hO, hB, hG, hlen]
  intro c hc
  exact mem_of_contains_eq_true (List.countP_eq_length.mp hcp c hc)

/-- On a complete cube the 6 × 9 stickers give `allColors` length 54. -/
theorem allColors_length {fs : Faces} (h : CompleteNine fs) :
    (allColorsOf fs).length = 54 := by
  obtain ⟨⟨u, hu, hu9⟩, ⟨d, hd, hd9⟩, ⟨l, hl, hl9⟩, ⟨r, hr, hr9⟩, ⟨f, hf, hf9⟩, ⟨b, hb, hb9⟩⟩ := h
  unfold allColorsOf faceColors
  rw [hu, hd, hl, hr, hf, hb]
  simp [hu9, hd9, hl9, hr9, hf9, hb9]

/-- The index-4 cell of a nine-cell face contributes its color to the face's
color list. -/
theorem getD_color_mem {l : List Cell} (h9 : l.length = 9) :
    (l.getD 4 ⟨""⟩).color ∈ l.map Cell.color := by
  have h4 : 4 < l.length := by omega
  rw [List.getD_eq_getElem?_getD, List.getElem?_eq_getElem h4]
  exact List.mem_map_of_mem _ (List.getElem_mem h4)

/-- On a complete cube every center color is a sticker color. -/
theorem center_mem_allColors {fs : Faces} (h : CompleteNine fs) :
    ∀ c ∈ getCenterColors fs, c ∈ allColorsOf fs := by
  obtain ⟨⟨u, hu, hu9⟩, ⟨d, hd, hd9⟩, ⟨l, hl, hl9⟩, ⟨r, hr, hr9⟩, ⟨f, hf, hf9⟩, ⟨b, hb, hb9⟩⟩ := h
  intro c hcm
  unfold getCenterColors centerContrib at hcm
  rw [hu, hd, hl, hr, hf, hb] at hcm
  simp only [hu9, hd9, hl9, hr9, hf9, hb9, if_pos, List.mem_append,
    List.mem_singleton] at hcm
  unfold allColorsOf faceColors
  rw [hu, hd, hl, hr, hf, hb]
  simp only [List.mem_append]
  rcases hcm with ((((rfl | rfl) | rfl) | rfl) | rfl) | rfl
  · exact Or.inl (Or.inr (getD_color_mem hf9))
  · exact Or.inl (Or.inl (Or.inr (getD_color_mem hr9)))
  · exact Or.inr (getD_color_mem hb9)
  · exact Or.inl (Or.inl (Or.inl (Or.inr (getD_color_mem hl9))))
  · exact Or.inl (Or.inl (Or.inl (Or.inl (Or.inl (getD_color_mem hu9)))))
  · exact Or.inl (Or.inl (Or.inl (Or.inl (Or.inr (getD_color_mem hd9)))))

/-- C1: on every complete cube (six faces of nine stickers) in which each of
the six known colors appears exactly nine times, no sticker is unknown and
the six centers are pairwise distinct, `validate` returns `valid = true`, an
empty violation list, and the count map with nine of every required color. -/
theorem validate_accepts_proper (st : CubeState) (hc : CompleteNine st.state)
    (hcounts : ∀ c ∈ requiredColors, (allColorsOf st.state).count c = 9)
    (hnu : (allColorsOf st.state).count "unknown" = 0)
    (hcent : (getCenterColors st.state).Nodup) :
    validate st = ⟨true, [], some (requiredColors.map fun c => (c, 9))⟩ := by
  rw [validate_eq_checks (isCompleteB_of_completeNine hc)]
  have hlen : (allColorsOf st.state).length = 54 := allColors_length hc
  have hall : ∀ c ∈ allColorsOf st.state, c ∈ requiredColors :=
    all_mem_required hlen hcounts
  have htot : totalErr (allColorsOf st.state) = [] := by
    simp [totalErr, hlen]
  have hstray : strayErr (allColorsOf st.state) = [] := by
    have hf : (allColorsOf st.state).filter strayColor = [] := by
      apply List.filter_eq_nil_iff.mpr
      intro c hcm
      have hsc : strayColor c = false := by
        simp [strayColor, hall c hcm]
      simp [hsc]
    simp [strayErr, hf]
  have hcount : countErrs (allColorsOf st.state) = [] := by
    unfold countErrs
    apply List.filterMap_eq_nil_iff.mpr
    intro p hp
    simp only [colorCountsOf, List.mem_map] at hp
    obtain ⟨c, hcm, rfl⟩ := hp
    simp [hcounts c hcm]
  have hunk : unknownErr (allColorsOf st.state) = [] := by
    have h0 : ((allColorsOf st.state).filter fun c => c == "unknown").length = 0 := by
      rw [← List.countP_eq_length_filter]
      exact hnu
    simp [unknownErr, h0]
  have hcerr : centerErr (getCenterColors st.state) = [] := by
    have hdl : (getCenterColors st.state).dedup.length = 6 := by
      rw [List.dedup_eq_self.mpr hcent, getCenterColors_length hc]
    simp [centerErr, hdl]
  have hmiss : missingErr (getCenterColors st.state) = [] := by
    have hceq : (getCenterColors st.state).toFinset = requiredColors.toFinset := by
      apply Finset.eq_of_subset_of_card_le
      · intro x hx
        rw [List.mem_toFinset] at hx ⊢
        exact hall x (center_mem_allColors hc x hx)
      · have h1 : (getCenterColors st.state).toFinset.card = 6 := by
          rw [List.toFinset_card_of_nodup hcent, getCenterColors_length hc]
        have h2 : requiredColors.toFinset.card = 6 := by decide
        rw [h1, h2]
    have hfil : (requiredColors.filter fun c => !((getCenterColors st.state).contains c)) = [] := by
      apply List.filter_eq_nil_iff.mpr
      intro c hcm
      have hmemc : c ∈ getCenterColors st.state := by
        have : c ∈ requiredColors.toFinset := List.mem_toFinset.mpr hcm
        rw [← hceq] at this
        exact List.mem_toFinset.mp this
      simp [hmemc]
    simp only [missingErr]
    rw [hfil]
    simp
  have herr : validationErrors st.state = [] := by
    unfold validationErrors
    rw [htot, hstray, hcount, hunk, hcerr, hmiss]
    rfl
  have hmap : colorCountsOf (allColorsOf st.state) = requiredColors.map fun c => (c, 9) := by
    unfold colorCountsOf
    apply List.map_congr_left
    intro c hcm
    rw [hcounts c hcm]
  simp [validateChecks, herr, hmap]

/-- Witness for C1 at the solved cube. -/
theorem validate_accepts_proper_witness :
    validate solvedState = ⟨true, [], some (requiredColors.map fun c => (c, 9))⟩ :=
  validate_accepts_proper solvedState
    ⟨⟨_, rfl, by decide⟩, ⟨_, rfl, by decide⟩, ⟨_, rfl, by decide⟩, ⟨_, rfl, by decide⟩,
     ⟨_, rfl, by decide⟩, ⟨_, rfl, by decide⟩⟩
    (by decide) (by decide) (by decide)

/-- The six face letters of the notation alphabet. -/
def faceLetters : List Char := ['U', 'D', 'L', 'R', 'F', 'B']

/-- Appending strings concatenates their character data. -/
theorem string_data_append (s t : String) : (s ++ t).data = s.data ++ t.data := by
  cases s
  cases t
  rfl

/-- Appending strings adds their lengths. -/
theorem string_length_append (s t : String) : (s ++ t).length = s.length + t.length := by
  cases s with
  | mk a => cases t with
    | mk b => exact List.length_append a b

/-- Every output of the color-to-letter mapping is a single character. -/
theorem colorLetter_length (c : String) : (colorLetter c).length = 1 := by
  unfold colorLetter
  repeat' split
  all_goals rfl

/-- On a required color the letter mapping lands in the face alphabet. -/
theorem colorLetter_known {c : String} (h : c ∈ requiredColors) :
    ∀ ch ∈ (colorLetter c).data, ch ∈ faceLetters := by
  simp only [requiredColors, List.mem_cons, List.not_mem_nil, or_false] at h
  rcases h with rfl | rfl | rfl | rfl | rfl | rfl <;> decide

/-- The per-face notation loop adds one character per cell. -/
theorem foldl_notation_length (face : List Cell) :
    ∀ acc : String,
      (face.foldl (fun a cell => a ++ colorLetter cell.color) acc).length =
        acc.length + face.length := by
  induction face with
  | nil => intro acc; simp
  | cons cell face ih =>
    intro acc
    rw [List.foldl_cons, ih, string_length_append, colorLetter_length]
    simp only [List.length_cons]
    omega

/-- The per-face notation loop only emits face letters when all cell colors
are required colors and the accumulator already consists of face letters. -/
theorem foldl_notation_chars :
    ∀ (face : List Cell) (acc : String),
      (∀ cell ∈ face, cell.color ∈ requiredColors) →
      (∀ ch ∈ acc.data, ch ∈ faceLetters) →
      ∀ ch ∈ (face.foldl (fun a cell => a ++ colorLetter cell.color) acc).data,
        ch ∈ faceLetters := by
  intro face
  induction face with
  | nil =>
    intro acc _ hacc
    simpa using hacc
  | cons cell face ih =>
    intro acc hface hacc
    rw [List.foldl_cons]
    refine ih _ (fun c hc => hface c (List.mem_cons_of_mem _ hc)) ?_
    intro ch hch
    rw [string_data_append] at hch
    rcases List.mem_append.mp hch with h | h
    · exact hacc ch h
    · exact colorLetter_known (hface cell (List.mem_cons_self _ _)) ch h

/-- The notation string of a face has one character per sticker. -/
theorem faceNotationStr_length (x : List Cell) : (faceNotationStr x).length = x.length := by
  unfold faceNotationStr
  rw [foldl_notation_length]
  simp [String.length]

/-- A face of required colors renders to face letters only. -/
theorem faceNotationStr_chars (x : List Cell) (hx : ∀ cell ∈ x, cell.color ∈ requiredColors) :
    ∀ ch ∈ (faceNotationStr x).data, ch ∈ faceLetters := by
  unfold faceNotationStr
  refine foldl_notation_chars x "" hx ?_
  intro ch hch
  simp at hch

/-- A report accepted by `validate` certifies that every sticker color is one
of the six required colors: the stray-color and unknown-count checks passed. -/
theorem all_known_of_valid {st : CubeState} (hcomp : isCompleteB st.state = true)
    (hv : (validate st).valid = true) :
    ∀ c ∈ allColorsOf st.state, c ∈ requiredColors := by
  rw [validate_eq_checks hcomp] at hv
  have herr : validationErrors st.state = [] := by
    have hb : ((validationErrors st.state).length == 0) = true := hv
    have hlen0 : (validationErrors st.state).length = 0 := by simpa using hb
    exact List.length_eq_zero.mp hlen0
  unfold validationErrors at herr
  obtain ⟨h5, hm⟩ := List.append_eq_nil.mp herr
  obtain ⟨h4, hce⟩ := List.append_eq_nil.mp h5
  obtain ⟨h3, hun⟩ := List.append_eq_nil.mp h4
  obtain ⟨h2, hcn⟩ := List.append_eq_nil.mp h3
  obtain ⟨ht, hs⟩ := List.append_eq_nil.mp h2
  have hstray : (allColorsOf st.state).filter strayColor = [] := by
    by_contra hne
    simp [strayErr, hne] at hs
  have hunk : ((allColorsOf st.state).filter fun c => c == "unknown").length = 0 := by
    by_contra hne
    have hpos : 0 < ((allColorsOf st.state).filter fun c => c == "unknown").length :=
      Nat.pos_of_ne_zero hne
    simp [unknownErr, hpos] at hun
  intro c hcm
  have hcu : c ≠ "unknown" := by
    intro heq
    subst heq
    have hmemf : ("unknown" : String) ∈ (allColorsOf st.state).filter fun c => c == "unknown" :=
      List.mem_filter.mpr ⟨hcm, by simp⟩
    have hpos := List.length_pos_of_mem hmemf
    rw [hunk] at hpos
    exact Nat.lt_irrefl 0 hpos
  have hns := List.filter_eq_nil_iff.mp hstray c hcm
  simp [strayColor, hcu] at hns
  exact hns

/-- C10: on a complete cube (nine stickers per face) that `validate` accepts,
`getStateString` returns a 54-character string over the alphabet
U, D, L, R, F, B, assembled by the fixed letter mapping over the faces in the
order U, R, F, D, L, B; on an incomplete cube it returns `null`. -/
theorem getStateString_spec (st : CubeState) :
    ((CompleteNine st.state ∧ (validate st).valid = true) →
      ∃ s, getStateString st = some s ∧ s.length = 54 ∧ ∀ ch ∈ s.data, ch ∈ faceLetters) ∧
    (isCompleteB st.state = false → getStateString st = none) := by
  constructor
  · rintro ⟨hc, hv⟩
    have hcomp := isCompleteB_of_completeNine hc
    have hall := all_known_of_valid hcomp hv
    obtain ⟨⟨u, hu, hu9⟩, ⟨d, hd, hd9⟩, ⟨l, hl, hl9⟩, ⟨r, hr, hr9⟩, ⟨f, hf, hf9⟩, ⟨b, hb, hb9⟩⟩ := hc
    have hallU : ∀ cell ∈ u, cell.color ∈ requiredColors := by
      intro cell hcell
      apply hall
      unfold allColorsOf faceColors
      rw [hu, hd, hl, hr, hf, hb]
      simp only [List.mem_append]
      exact Or.inl (Or.inl (Or.inl (Or.inl (Or.inl (List.mem_map_of_mem _ hcell)))))
    have hallD : ∀ cell ∈ d, cell.color ∈ requiredColors := by
      intro cell hcell
      apply hall
      unfold allColorsOf faceColors
      rw [hu, hd, hl, hr, hf, hb]
      simp only [List.mem_append]
      exact Or.inl (Or.inl (Or.inl (Or.inl (Or.inr (List.mem_map_of_mem _ hcell)))))
    have hallL : ∀ cell ∈ l, cell.color ∈ requiredColors := by
      intro cell hcell
      apply hall
      unfold allColorsOf faceColors
      rw [hu, hd, hl, hr, hf, hb]
      simp only [List.mem_append]
      exact Or.inl (Or.inl (Or.inl (Or.inr (List.mem_map_of_mem _ hcell))))
    have hallR : ∀ cell ∈ r, cell.color ∈ requiredColors := by
      intro cell hcell
      apply hall
      unfold allColorsOf faceColors
      rw [hu, hd, hl, hr, hf, hb]
      simp only [List.mem_append]
      exact Or.inl (Or.inl (Or.inr (List.mem_map_of_mem _ hcell)))
    have hallF : ∀ cell ∈ f, cell.color ∈ requiredColors := by
      intro cell hcell
      apply hall
      unfold allColorsOf faceColors
      rw [hu, hd, hl, hr, hf, hb]
      simp only [List.mem_append]
      exact Or.inl (Or.inr (List.mem_map_of_mem _ hcell))
    have hallB : ∀ cell ∈ b, cell.color ∈ requiredColors := by
      intro cell hcell
      apply hall
      unfold allColorsOf faceColors
      rw [hu, hd, hl, hr, hf, hb]
      simp only [List.mem_append]
      exact Or.inr (List.mem_map_of_mem _ hcell)
    refine ⟨faceNotationStr u ++ faceNotationStr r ++ faceNotationStr f ++ faceNotationStr d ++
      faceNotationStr l ++ faceNotationStr b, ?_, ?_, ?_⟩
    · unfold getStateString
      rw [hcomp, hu, hr, hf, hd, hl, hb]
      simp
    · rw [string_length_append, string_length_append, string_length_append,
        string_length_append, string_length_append, faceNotationStr_length,
        faceNotationStr_length, faceNotationStr_length, faceNotationStr_length,
        faceNotationStr_length, faceNotationStr_length, hu9, hd9, hl9, hr9, hf9, hb9]
    · intro ch hch
      simp only [string_data_append, List.mem_append] at hch
      rcases hch with ((((h | h) | h) | h) | h) | h
      · exact faceNotationStr_chars u hallU ch h
      · exact faceNotationStr_chars r hallR ch h
      · exact faceNotationStr_chars f hallF ch h
      · exact faceNotationStr_chars d hallD ch h
      · exact faceNotationStr_chars l hallL ch h
      · exact faceNotationStr_chars b hallB ch h
  · intro hincomp
    unfold getStateString
    rw [hincomp]
    simp

/-- Witness for C10: the accepted solved cube yields a 54-letter string; the
reset cube yields `null`. -/
theorem getStateString_spec_witness :
    (∃ s, getStateString solvedState = some s ∧ s.length = 54 ∧
        ∀ ch ∈ s.data, ch ∈ faceLetters) ∧
      getStateString emptyState = none :=
  ⟨(getStateString_spec solvedState).1
      ⟨⟨⟨_, rfl, by decide⟩, ⟨_, rfl, by decide⟩, ⟨_, rfl, by decide⟩, ⟨_, rfl, by decide⟩,
        ⟨_, rfl, by decide⟩, ⟨_, rfl, by decide⟩⟩, by decide⟩,
   (getStateString_spec emptyState).2 (by decide)⟩
